import Mathlib

set_option maxRecDepth 8000

/-! Verification development for the vehicle-telemetry simulator and heuristic
inference engine of the predictive-maintenance dashboard (src/script.js).
Machine numbers are modeled as rationals; the two random draws a simulator
step may consume (the mode-flip draw and the rpm jitter draw) and the battery
oscillation value are passed in explicitly per step. -/

/-- Vehicle state record (script.js line 13): rpm, speed, throttle, load,
coolant, battery, fuelEff. -/
structure VehicleState where
  rpm : ℚ
  speed : ℚ
  throttle : ℚ
  load : ℚ
  coolant : ℚ
  battery : ℚ
  fuelEff : ℚ
deriving DecidableEq

/-- Rolling history, one list per channel (script.js lines 14-21). -/
structure HistoryState where
  rpm : List ℚ
  speed : List ℚ
  load : List ℚ
  coolant : List ℚ
  throttle : List ℚ
  fuelEff : List ℚ
deriving DecidableEq

/-- The random inputs consumed by one tick: the mode-flip draw and the rpm
jitter draw (both Math.random() results), and the battery oscillation value
standing for sin(Date.now()/1000). -/
structure Draws where
  rFlip : ℚ
  rJitter : ℚ
  bSin : ℚ
deriving DecidableEq

/-- Validity of one step's random inputs: Math.random() lands in [0,1),
and a sine value lands in [-1,1]. -/
abbrev ValidDraws (d : Draws) : Prop :=
  0 ≤ d.rFlip ∧ d.rFlip < 1 ∧ 0 ≤ d.rJitter ∧ d.rJitter < 1 ∧
    -1 ≤ d.bSin ∧ d.bSin ≤ 1

/-- HISTORY_SIZE (script.js line 9). -/
def HISTORY_SIZE : ℕ := 100

/-- Linear interpolation (script.js line 65):
lerp(start, end, amt) = (1 - amt) * start + amt * end. -/
def lerp (start e amt : ℚ) : ℚ := (1 - amt) * start + amt * e

/-- One channel's history update (script.js lines 58-63): push the new value
at the back, then shift the oldest value off the front. -/
def pushShift (l : List ℚ) (x : ℚ) : List ℚ := (l ++ [x]).tail

/-- updateHistory (script.js lines 57-64): every channel pushes the new state
value and evicts its oldest entry. -/
def updateHistory (h : HistoryState) (s : VehicleState) : HistoryState :=
  { rpm := pushShift h.rpm s.rpm
    speed := pushShift h.speed s.speed
    load := pushShift h.load s.load
    coolant := pushShift h.coolant s.coolant
    throttle := pushShift h.throttle s.throttle
    fuelEff := pushShift h.fuelEff s.fuelEff }

/-- Full simulator state: current state, rolling history, target state,
drive mode flag and debounce counter (script.js lines 12-25). -/
structure SimState where
  state : VehicleState
  history : HistoryState
  target : VehicleState
  isAccelerating : Bool
  accelCounter : ℕ
deriving DecidableEq

/-- Initial vehicle state (script.js line 13). -/
def initialState : VehicleState :=
  { rpm := 1000, speed := 0, throttle := 0, load := 20, coolant := 90,
    battery := 13.8, fuelEff := 8.5 }

/-- Initial history: each channel pre-filled with 100 copies of the initial
value (script.js lines 14-21). -/
def initialHistory : HistoryState :=
  { rpm := List.replicate HISTORY_SIZE 1000
    speed := List.replicate HISTORY_SIZE 0
    load := List.replicate HISTORY_SIZE 20
    coolant := List.replicate HISTORY_SIZE 90
    throttle := List.replicate HISTORY_SIZE 0
    fuelEff := List.replicate HISTORY_SIZE 8.5 }

/-- Initial simulator state (script.js constructor, lines 12-25): target is a
copy of the state, mode is decelerating, counter is 0. -/
def initialSim : SimState :=
  { state := initialState, history := initialHistory, target := initialState,
    isAccelerating := false, accelCounter := 0 }

/-- tick (script.js lines 26-56): increment the debounce counter; flip the
drive mode when the counter exceeds 50 and the draw exceeds 0.95 (resetting
the counter); push each target toward its ceiling (accelerating) or floor
(decelerating); add rpm jitter; drift the coolant target; smooth every state
field toward its target by lerp; recompute battery; append to history. -/
def tick (s : SimState) (d : Draws) : SimState :=
  let counter := s.accelCounter + 1
  let isAcc :=
    if 50 < counter ∧ (0.95 : ℚ) < d.rFlip then !s.isAccelerating
    else s.isAccelerating
  let counter2 :=
    if 50 < counter ∧ (0.95 : ℚ) < d.rFlip then 0 else counter
  let t := s.target
  let t1 : VehicleState :=
    if isAcc then
      { t with throttle := min (t.throttle + 2) 85
               rpm := min (t.rpm + 60) 5500
               speed := min (t.speed + 0.8) 140
               load := min (t.load + 1.5) 95
               fuelEff := min (t.fuelEff + 0.5) 25 }
    else
      { t with throttle := max (t.throttle - 3) 0
               rpm := max (t.rpm - 80) 800
               speed := max (t.speed - 0.4) 0
               load := max (t.load - 2) 15
               fuelEff := max (t.fuelEff - 0.2) 4.5 }
  let t2 : VehicleState := { t1 with rpm := t1.rpm + (d.rJitter - 0.5) * 30 }
  let t3 : VehicleState :=
    { t2 with coolant :=
        if 70 < s.state.load then t2.coolant + 0.02
        else max (t2.coolant - 0.01) 88 }
  let st := s.state
  let st' : VehicleState :=
    { rpm := lerp st.rpm t3.rpm 0.08
      speed := lerp st.speed t3.speed 0.04
      throttle := lerp st.throttle t3.throttle 0.1
      load := lerp st.load t3.load 0.08
      coolant := lerp st.coolant t3.coolant 0.05
      fuelEff := lerp st.fuelEff t3.fuelEff 0.05
      battery := 13.5 + d.bSin * 0.2 }
  { state := st'
    history := updateHistory s.history st'
    target := t3
    isAccelerating := isAcc
    accelCounter := counter2 }

/-- The simulator trace: state after n ticks driven by the draw sequence f. -/
def traceSim (f : ℕ → Draws) : ℕ → SimState
  | 0 => initialSim
  | n + 1 => tick (traceSim f n) (f n)

/-- The range every bounded target field provably stays in after every step:
throttle, speed, load and fuelEff within their documented clamps, and rpm
within the documented clamp widened by the ±15 jitter that is added after
the clamp. -/
abbrev TargetsInRange (s : SimState) : Prop :=
  0 ≤ s.target.throttle ∧ s.target.throttle ≤ 85 ∧
  785 ≤ s.target.rpm ∧ s.target.rpm ≤ 5515 ∧
  0 ≤ s.target.speed ∧ s.target.speed ≤ 140 ∧
  15 ≤ s.target.load ∧ s.target.load ≤ 95 ∧
  4.5 ≤ s.target.fuelEff ∧ s.target.fuelEff ≤ 25

lemma tick_targets (s : SimState) (d : Draws) (hd : ValidDraws d)
    (h : TargetsInRange s) : TargetsInRange (tick s d) := by
  obtain ⟨ht0, ht85, hr1, hr2, hs0, hs1, hl1, hl2, hf1, hf2⟩ := h
  obtain ⟨-, -, hj0, hj1, -, -⟩ := hd
  have hjlo : (-15 : ℚ) ≤ (d.rJitter - 0.5) * 30 := by nlinarith
  have hjhi : (d.rJitter - 0.5) * 30 ≤ 15 := by nlinarith
  by_cases hc : 50 < s.accelCounter + 1 ∧ (0.95 : ℚ) < d.rFlip <;>
    cases hb : s.isAccelerating <;>
    simp [tick, TargetsInRange, hb, hc]
  case pos.false =>
    refine ⟨by linarith, ?_, ?_, by linarith, ⟨by linarith, by norm_num⟩,
      by linarith, by norm_num⟩
    · have h800 : (800 : ℚ) ≤ (s.target.rpm + 60) ⊓ 5500 :=
        le_min (by linarith) (by norm_num)
      linarith
    · have h5500 : (s.target.rpm + 60) ⊓ 5500 ≤ 5500 := min_le_right _ _
      linarith
  case pos.true =>
    refine ⟨by linarith, ?_, ?_, by linarith, ⟨by linarith, by norm_num⟩,
      by linarith, by norm_num⟩
    · have h800 : (800 : ℚ) ≤ (s.target.rpm - 80) ⊔ 800 := le_max_right _ _
      linarith
    · have h5500 : (s.target.rpm - 80) ⊔ 800 ≤ 5500 :=
        max_le (by linarith) (by norm_num)
      linarith
  case neg.false =>
    refine ⟨by linarith, ?_, ?_, by linarith, ⟨by linarith, by norm_num⟩,
      by linarith, by norm_num⟩
    · have h800 : (800 : ℚ) ≤ (s.target.rpm - 80) ⊔ 800 := le_max_right _ _
      linarith
    · have h5500 : (s.target.rpm - 80) ⊔ 800 ≤ 5500 :=
        max_le (by linarith) (by norm_num)
      linarith
  case neg.true =>
    refine ⟨by linarith, ?_, ?_, by linarith, ⟨by linarith, by norm_num⟩,
      by linarith, by norm_num⟩
    · have h800 : (800 : ℚ) ≤ (s.target.rpm + 60) ⊓ 5500 :=
        le_min (by linarith) (by norm_num)
      linarith
    · have h5500 : (s.target.rpm + 60) ⊓ 5500 ≤ 5500 := min_le_right _ _
      linarith

/-- C1 counterexample: with the valid draw sequence that always picks the
mode-flip draw 0.5 and the jitter draw 0, after three ticks from the initial
state the rpm target is 785, strictly below the documented floor 800 -- the
±15 jitter is added after the clamp, so the claimed post-step range
[800, 5500] for the rpm target is violated. -/
theorem C1_counterexample :
    ValidDraws ⟨0.5, 0, 0⟩ ∧
      (traceSim (fun _ => ⟨0.5, 0, 0⟩) 3).target.rpm < 800 := by
  constructor
  · exact ⟨by norm_num, by norm_num, by norm_num, by norm_num,
      by norm_num, by norm_num⟩
  · norm_num [traceSim, tick, initialSim, initialState, max_def]

/-- C1 (amended): for every sequence of valid random draws and every number of
steps, the post-step targets satisfy throttle ∈ [0,85], speed ∈ [0,140],
load ∈ [15,95], fuel consumption ∈ [4.5,25], and rpm ∈ [785,5515]: the rpm
target is clamped to [800,5500] before the ±15 jitter is added, so the
documented rpm range holds only widened by 15 on each side. -/
theorem C1_target_bounds (f : ℕ → Draws) (hf : ∀ n, ValidDraws (f n)) :
    ∀ n, TargetsInRange (traceSim f n) := by
  intro n
  induction n with
  | zero => norm_num [traceSim, initialSim, initialState, TargetsInRange]
  | succ k ih => exact tick_targets _ _ (hf k) ih

/-- Witness for C1: the amended bounds hold concretely after two steps of the
all-0.5 draw sequence. -/
theorem C1_target_bounds_witness :
    TargetsInRange (traceSim (fun _ => ⟨0.5, 0.5, 0⟩) 2) :=
  C1_target_bounds (fun _ => ⟨0.5, 0.5, 0⟩)
    (fun _ => ⟨by norm_num, by norm_num, by norm_num, by norm_num,
      by norm_num, by norm_num⟩) 2

lemma pushShift_length (l : List ℚ) (x : ℚ) :
    (pushShift l x).length = l.length := by
  simp [pushShift]

lemma pushShift_eq_tail_append (l : List ℚ) (x : ℚ) (h : l ≠ []) :
    pushShift l x = l.tail ++ [x] := by
  cases l with
  | nil => exact absurd rfl h
  | cons a t => simp [pushShift]

lemma trace_history_lengths (f : ℕ → Draws) (n : ℕ) :
    (traceSim f n).history.rpm.length = 100 ∧
    (traceSim f n).history.speed.length = 100 ∧
    (traceSim f n).history.load.length = 100 ∧
    (traceSim f n).history.coolant.length = 100 ∧
    (traceSim f n).history.throttle.length = 100 ∧
    (traceSim f n).history.fuelEff.length = 100 := by
  induction n with
  | zero => simp [traceSim, initialSim, initialHistory, HISTORY_SIZE]
  | succ k ih =>
    obtain ⟨h1, h2, h3, h4, h5, h6⟩ := ih
    simp [traceSim, tick, updateHistory, pushShift_length, h1, h2, h3, h4, h5, h6]

/-- C2: every channel's history has length exactly 100 after construction and
after any number of ticks, and each tick appends the new state value of each
channel at the back while evicting exactly the oldest (front) entry. -/
theorem C2_history_invariant (f : ℕ → Draws) (n : ℕ) :
    ((traceSim f n).history.rpm.length = 100 ∧
     (traceSim f n).history.speed.length = 100 ∧
     (traceSim f n).history.load.length = 100 ∧
     (traceSim f n).history.coolant.length = 100 ∧
     (traceSim f n).history.throttle.length = 100 ∧
     (traceSim f n).history.fuelEff.length = 100) ∧
    ((traceSim f (n + 1)).history.rpm
        = (traceSim f n).history.rpm.tail ++ [(traceSim f (n + 1)).state.rpm] ∧
     (traceSim f (n + 1)).history.speed
        = (traceSim f n).history.speed.tail ++ [(traceSim f (n + 1)).state.speed] ∧
     (traceSim f (n + 1)).history.load
        = (traceSim f n).history.load.tail ++ [(traceSim f (n + 1)).state.load] ∧
     (traceSim f (n + 1)).history.coolant
        = (traceSim f n).history.coolant.tail ++ [(traceSim f (n + 1)).state.coolant] ∧
     (traceSim f (n + 1)).history.throttle
        = (traceSim f n).history.throttle.tail ++ [(traceSim f (n + 1)).state.throttle] ∧
     (traceSim f (n + 1)).history.fuelEff
        = (traceSim f n).history.fuelEff.tail ++ [(traceSim f (n + 1)).state.fuelEff]) := by
  obtain ⟨h1, h2, h3, h4, h5, h6⟩ := trace_history_lengths f n
  refine ⟨⟨h1, h2, h3, h4, h5, h6⟩, ?_, ?_, ?_, ?_, ?_, ?_⟩ <;>
    simp only [traceSim, tick, updateHistory] <;>
    exact pushShift_eq_tail_append _ _ (by
      intro he
      first
        | (rw [he] at h1; simp at h1)
        | (rw [he] at h2; simp at h2)
        | (rw [he] at h3; simp at h3)
        | (rw [he] at h4; simp at h4)
        | (rw [he] at h5; simp at h5)
        | (rw [he] at h6; simp at h6))

lemma traceSim_succ (f : ℕ → Draws) (n : ℕ) :
    traceSim f (n + 1) = tick (traceSim f n) (f n) := rfl

lemma tick_flip_iff (s : SimState) (d : Draws) :
    ((tick s d).isAccelerating ≠ s.isAccelerating) ↔
      (50 < s.accelCounter + 1 ∧ (0.95 : ℚ) < d.rFlip) := by
  by_cases hc : 50 < s.accelCounter + 1 ∧ (0.95 : ℚ) < d.rFlip <;>
    cases hb : s.isAccelerating <;> simp [tick, hc, hb]

lemma counter_of_flip (s : SimState) (d : Draws)
    (h : (tick s d).isAccelerating ≠ s.isAccelerating) :
    (tick s d).accelCounter = 0 := by
  have hc := (tick_flip_iff s d).mp h
  simp [tick, hc]

lemma counter_of_noflip (s : SimState) (d : Draws)
    (h : ¬ ((tick s d).isAccelerating ≠ s.isAccelerating)) :
    (tick s d).accelCounter = s.accelCounter + 1 := by
  have hc : ¬ (50 < s.accelCounter + 1 ∧ (0.95 : ℚ) < d.rFlip) :=
    fun hcc => h ((tick_flip_iff s d).mpr hcc)
  simp [tick, hc]

/-- A drive-mode flip occurs at step n of the trace. -/
def flipAt (f : ℕ → Draws) (n : ℕ) : Prop :=
  (traceSim f (n + 1)).isAccelerating ≠ (traceSim f n).isAccelerating

lemma flipAt_iff (f : ℕ → Draws) (n : ℕ) :
    flipAt f n ↔
      (50 < (traceSim f n).accelCounter + 1 ∧ (0.95 : ℚ) < (f n).rFlip) := by
  rw [flipAt, traceSim_succ]
  exact tick_flip_iff _ _

/-- Counter growth along a flip-free stretch of at most 50 steps starting
from a reset counter. -/
lemma counter_run (f : ℕ → Draws) (m : ℕ)
    (h : (traceSim f m).accelCounter = 0) :
    ∀ t, t ≤ 50 → (traceSim f (m + t)).accelCounter = t := by
  intro t
  induction t with
  | zero => intro _; simpa using h
  | succ k ih =>
    intro hle
    have hk : (traceSim f (m + k)).accelCounter = k := ih (by omega)
    have hnc : ¬ (50 < (traceSim f (m + k)).accelCounter + 1 ∧
        (0.95 : ℚ) < (f (m + k)).rFlip) := by
      rw [hk]; rintro ⟨hx, -⟩; omega
    have hnof : ¬ ((tick (traceSim f (m + k)) (f (m + k))).isAccelerating
        ≠ (traceSim f (m + k)).isAccelerating) :=
      fun hfp => hnc ((tick_flip_iff _ _).mp hfp)
    rw [show m + (k + 1) = (m + k) + 1 by omega, traceSim_succ,
        counter_of_noflip _ _ hnof, hk]

/-- C7: the drive mode flips at a step exactly when the post-increment tick
counter exceeds 50 and the random draw exceeds 0.95; every flip resets the
counter to 0; hence at least 50 steps elapse between any two consecutive
mode flips, for every sequence of draws. -/
theorem C7_debounced_flips (f : ℕ → Draws) :
    (∀ n, flipAt f n ↔
        (50 < (traceSim f n).accelCounter + 1 ∧ (0.95 : ℚ) < (f n).rFlip)) ∧
    (∀ n, flipAt f n → (traceSim f (n + 1)).accelCounter = 0) ∧
    (∀ i j, i < j → flipAt f i → flipAt f j →
      (∀ k, i < k → k < j → ¬ flipAt f k) → 50 ≤ j - i) := by
  refine ⟨flipAt_iff f, ?_, ?_⟩
  · intro n hn
    rw [traceSim_succ]
    exact counter_of_flip _ _ (by rw [flipAt, traceSim_succ] at hn; exact hn)
  · intro i j hij hfi hfj hbet
    have h0 : (traceSim f (i + 1)).accelCounter = 0 := by
      rw [traceSim_succ]
      exact counter_of_flip _ _ (by rw [flipAt, traceSim_succ] at hfi; exact hfi)
    have hcount : ∀ t, i + 1 + t ≤ j →
        (traceSim f (i + 1 + t)).accelCounter = t := by
      intro t
      induction t with
      | zero => intro _; simpa using h0
      | succ k ih =>
        intro hle
        have hk := ih (by omega)
        have hnof : ¬ flipAt f (i + 1 + k) := hbet _ (by omega) (by omega)
        rw [flipAt, traceSim_succ] at hnof
        rw [show i + 1 + (k + 1) = (i + 1 + k) + 1 by omega, traceSim_succ,
            counter_of_noflip _ _ hnof, hk]
    have hj' : 50 < (traceSim f j).accelCounter + 1 := ((flipAt_iff f j).mp hfj).1
    have hcj : (traceSim f j).accelCounter = j - i - 1 := by
      have hx := hcount (j - i - 1) (by omega)
      rwa [show i + 1 + (j - i - 1) = j by omega] at hx
    omega

/-- Witness for C7: with the constant draw sequence whose flip draw is 0.96,
flips occur at steps 50 and 101 and no step in between, and the theorem
yields the 50-step separation. -/
theorem C7_debounced_flips_witness :
    flipAt (fun _ => ⟨0.96, 0.5, 0⟩) 50 ∧
    flipAt (fun _ => ⟨0.96, 0.5, 0⟩) 101 ∧
    50 ≤ 101 - 50 := by
  have c0 : (traceSim (fun _ => (⟨0.96, 0.5, 0⟩ : Draws)) 0).accelCounter = 0 := rfl
  have h50c : (traceSim (fun _ => (⟨0.96, 0.5, 0⟩ : Draws)) 50).accelCounter = 50 := by
    have hx := counter_run (fun _ => (⟨0.96, 0.5, 0⟩ : Draws)) 0 c0 50 (by omega)
    simpa using hx
  have hiff := (C7_debounced_flips (fun _ => (⟨0.96, 0.5, 0⟩ : Draws))).1
  have hf50 : flipAt (fun _ => (⟨0.96, 0.5, 0⟩ : Draws)) 50 :=
    (hiff 50).mpr ⟨by rw [h50c]; omega, by norm_num⟩
  have hc51 : (traceSim (fun _ => (⟨0.96, 0.5, 0⟩ : Draws)) 51).accelCounter = 0 :=
    (C7_debounced_flips (fun _ => (⟨0.96, 0.5, 0⟩ : Draws))).2.1 50 hf50
  have h101c : (traceSim (fun _ => (⟨0.96, 0.5, 0⟩ : Draws)) 101).accelCounter = 50 := by
    have hx := counter_run (fun _ => (⟨0.96, 0.5, 0⟩ : Draws)) 51 hc51 50 (by omega)
    simpa using hx
  have hf101 : flipAt (fun _ => (⟨0.96, 0.5, 0⟩ : Draws)) 101 :=
    (hiff 101).mpr ⟨by rw [h101c]; omega, by norm_num⟩
  have hbet : ∀ k, 50 < k → k < 101 →
      ¬ flipAt (fun _ => (⟨0.96, 0.5, 0⟩ : Draws)) k := by
    intro k hk1 hk2
    have hkc : (traceSim (fun _ => (⟨0.96, 0.5, 0⟩ : Draws)) k).accelCounter = k - 51 := by
      have hx := counter_run (fun _ => (⟨0.96, 0.5, 0⟩ : Draws)) 51 hc51 (k - 51) (by omega)
      rwa [show 51 + (k - 51) = k by omega] at hx
    intro hfk
    have hx := ((hiff k).mp hfk).1
    omega
  exact ⟨hf50, hf101,
    (C7_debounced_flips (fun _ => (⟨0.96, 0.5, 0⟩ : Draws))).2.2 50 101
      (by omega) hf50 hf101 hbet⟩

/-- C9: from the documented initial state (rpm 1000, speed 0, throttle 0,
load 20, coolant 90, fuelEff 8.5) in decelerating mode, one tick sets the
throttle target to max(0-3, 0) = 0 and moves the throttle state by
lerp toward it with amount 0.1, leaving it unchanged at 0, where
lerp(start, end, amt) = (1-amt)*start + amt*end. -/
theorem C9_decel_step_scenario (d : Draws) :
    initialSim.isAccelerating = false ∧
    initialSim.state = ⟨1000, 0, 0, 20, 90, 13.8, 8.5⟩ ∧
    initialSim.target.throttle = 0 ∧
    (tick initialSim d).target.throttle = max (0 - 3) 0 ∧
    (tick initialSim d).target.throttle = 0 ∧
    (tick initialSim d).state.throttle = lerp 0 0 0.1 ∧
    (tick initialSim d).state.throttle = 0 ∧
    (∀ s e a : ℚ, lerp s e a = (1 - a) * s + a * e) := by
  refine ⟨rfl, rfl, rfl, ?_, ?_, ?_, ?_, fun s e a => rfl⟩ <;>
    norm_num [tick, initialSim, initialState, lerp, max_def]

/-- C10: whenever current load exceeds 70, a tick raises the coolant target by
exactly 0.02 with no upper clamp; otherwise the coolant target decays by 0.01
clamped at the floor 88; and no finite upper bound on the coolant target is
preserved by the step operation. -/
theorem C10_coolant_target (s : SimState) (d : Draws) :
    (70 < s.state.load → (tick s d).target.coolant = s.target.coolant + 0.02) ∧
    (¬ 70 < s.state.load →
      (tick s d).target.coolant = max (s.target.coolant - 0.01) 88 ∧
        88 ≤ (tick s d).target.coolant) ∧
    (∀ B : ℚ, ∃ s' : SimState, ∃ d' : Draws,
      s'.target.coolant ≤ B ∧ B < (tick s' d').target.coolant) := by
  refine ⟨?_, ?_, ?_⟩
  · intro hl
    by_cases hc : 50 < s.accelCounter + 1 ∧ (0.95 : ℚ) < d.rFlip <;>
      cases hb : s.isAccelerating <;> simp [tick, hc, hb, hl]
  · intro hl
    have he : (tick s d).target.coolant = max (s.target.coolant - 0.01) 88 := by
      by_cases hc : 50 < s.accelCounter + 1 ∧ (0.95 : ℚ) < d.rFlip <;>
        cases hb : s.isAccelerating <;> simp [tick, hc, hb, hl]
    exact ⟨he, he ▸ le_max_right _ _⟩
  · intro B
    refine ⟨{ state := { initialState with load := 80 },
              history := initialHistory,
              target := { initialState with coolant := B },
              isAccelerating := false, accelCounter := 0 },
            ⟨0.5, 0.5, 0⟩, le_refl B, ?_⟩
    have hl : (70 : ℚ) < 80 := by norm_num
    norm_num [tick, initialState]

/-- Witness for C10: at the initial state (load 20, not above 70), one tick
takes the coolant target to max(90 - 0.01, 88). -/
theorem C10_coolant_target_witness :
    (tick initialSim ⟨0.5, 0.5, 0⟩).target.coolant
      = max (initialSim.target.coolant - 0.01) 88 :=
  ((C10_coolant_target initialSim ⟨0.5, 0.5, 0⟩).2.1
    (by norm_num [initialSim, initialState])).1

/-- calculateVariance (script.js lines 136-139): seed-less reduce for the mean
(a JS TypeError on an empty array, modeled as none), then the seeded reduce of
squared deviations, both divided by the array length. -/
def calculateVariance : List ℚ → Option ℚ
  | [] => none
  | a :: rest =>
    let n : ℚ := (a :: rest).length
    let mean := rest.foldl (fun x y => x + y) a / n
    some (((a :: rest).foldl (fun x y => x + (y - mean) ^ 2) 0) / n)

/-- Population variance as the spec words it: the mean of squared deviations
from the mean, dividing by N. -/
def popVariance (l : List ℚ) : ℚ :=
  let mean := l.sum / (l.length : ℚ)
  (l.map (fun x => (x - mean) ^ 2)).sum / (l.length : ℚ)

/-- history.rpm.slice(-20) (script.js line 90): the most recent 20 samples. -/
def recentSlice (l : List ℚ) : List ℚ := l.drop (l.length - 20)

/-- Anomaly flag (script.js lines 90-92): the variance of the most recent 20
rpm samples compared against the fixed threshold 5000. -/
def rpmAnomalyCheck (rpmHist : List ℚ) : Option Bool :=
  (calculateVariance (recentSlice rpmHist)).map (fun v => decide (5000 < v))

/-- Thermal health (script.js lines 80-81): 100, minus 5 per degree of coolant
above 100. -/
def thermalHealth (coolant : ℚ) : ℚ :=
  if 100 < coolant then 100 - (coolant - 100) * 5 else 100

/-- Engine health (script.js lines 82-84). -/
def engineHealth (rpm load : ℚ) : ℚ :=
  100 - (if 4500 < rpm then 5 else 0) - (if 90 < load then 2 else 0)

/-- Electrical health (script.js lines 85-86). -/
def elecHealth (battery : ℚ) : ℚ :=
  100 - (if battery < 12.8 then 10 else 0)

/-- Hygiene score (script.js line 87): rounded weighted composite. -/
def hygieneScore (thermal engine elec : ℚ) : ℤ :=
  round (thermal * 0.4 + engine * 0.4 + elec * 0.2)

/-- One inference call's RUL update (script.js lines 94-96):
rulKms -= ((load / 100) * 2) * 0.1. -/
def rulStep (rul load : ℚ) : ℚ := rul - ((load / 100) * 2) * 0.1

/-- The RUL counter after a sequence of inference calls with the given loads,
starting from the initial 15000 (script.js line 73). -/
def rulAfter (loads : List ℚ) : ℚ := loads.foldl rulStep 15000

/-- Sum of positive frame-to-frame increases (script.js lines 142-145). -/
def sumPosDeltas : List ℚ → ℚ
  | a :: b :: rest => (if a < b then b - a else 0) + sumPosDeltas (b :: rest)
  | _ => 0

/-- calculateAggression (script.js lines 140-148): Math.min(100, sumDelta*2). -/
def calculateAggression (arr : List ℚ) : ℚ := min 100 (sumPosDeltas arr * 2)

/-- Driver classes (script.js lines 102-118). -/
inductive DriverClass where
  | NORMAL
  | AGGRESSIVE
  | ECO_OPTIMAL
  | ERRATIC
deriving DecidableEq

/-- Driver classification cascade (script.js lines 102-118), returning the
class and the pre-rounding confidence. rpmVol stands for the upstream feature
Math.sqrt(rpmVariance)/100 of line 100 and jitter for the Math.random() draw
of line 103. -/
def classifyDriver (throttleAggression speed rpmVol jitter : ℚ) :
    DriverClass × ℚ :=
  if 60 < throttleAggression then (DriverClass.AGGRESSIVE, 92)
  else if throttleAggression < 20 ∧ 30 < speed then (DriverClass.ECO_OPTIMAL, 96)
  else if 8 < rpmVol then (DriverClass.ERRATIC, 78)
  else (DriverClass.NORMAL, 85 + jitter * 10)

/-- The scenario history rising by 5 between every consecutive pair:
rampFrom n c has n+1 samples c, c+5, ..., c+5n. -/
def rampFrom : ℕ → ℚ → List ℚ
  | 0, c => [c]
  | n + 1, c => c :: rampFrom n (c + 5)

lemma foldl_add_eq (x : ℚ) (l : List ℚ) :
    l.foldl (fun p q => p + q) x = x + l.sum := by
  induction l generalizing x with
  | nil => simp
  | cons a t ih =>
    simp only [List.foldl_cons, List.sum_cons, ih]
    ring

lemma foldl_add_sq_eq (m x : ℚ) (l : List ℚ) :
    l.foldl (fun p q => p + (q - m) ^ 2) x
      = x + (l.map (fun q => (q - m) ^ 2)).sum := by
  induction l generalizing x with
  | nil => simp
  | cons a t ih =>
    simp only [List.foldl_cons, List.map_cons, List.sum_cons, ih]
    ring

lemma calculateVariance_eq (l : List ℚ) (h : l ≠ []) :
    calculateVariance l = some (popVariance l) := by
  cases l with
  | nil => exact absurd rfl h
  | cons a rest =>
    simp only [calculateVariance, popVariance, foldl_add_eq, foldl_add_sq_eq,
      List.sum_cons, List.map_cons, List.length_cons, zero_add]

lemma popVariance_replicate (n : ℕ) (hn : n ≠ 0) (c : ℚ) :
    popVariance (List.replicate n c) = 0 := by
  have hnq : ((n : ℚ)) ≠ 0 := Nat.cast_ne_zero.mpr hn
  have hmean : (List.replicate n c).sum / (((List.replicate n c).length : ℕ) : ℚ) = c := by
    rw [List.sum_replicate, List.length_replicate, nsmul_eq_mul]
    field_simp
  simp only [popVariance]
  rw [hmean]
  simp

/-- C3: for every history with at least 20 rpm samples, the inference's
variance computation equals the population variance of exactly the most
recent 20 samples, the anomaly flag holds exactly when that variance exceeds
5000, and when the last 20 samples are all equal the variance is 0 and the
anomaly flag is false. -/
theorem C3_variance_anomaly (h : List ℚ) (hlen : 20 ≤ h.length) :
    (recentSlice h).length = 20 ∧
    calculateVariance (recentSlice h) = some (popVariance (recentSlice h)) ∧
    (rpmAnomalyCheck h = some true ↔ 5000 < popVariance (recentSlice h)) ∧
    (∀ c : ℚ, recentSlice h = List.replicate 20 c →
      popVariance (recentSlice h) = 0 ∧ rpmAnomalyCheck h = some false) := by
  have hsl : (recentSlice h).length = 20 := by
    simp only [recentSlice, List.length_drop]
    omega
  have hne : recentSlice h ≠ [] := by
    intro he
    rw [he] at hsl
    simp at hsl
  have hcv := calculateVariance_eq _ hne
  refine ⟨hsl, hcv, ?_, ?_⟩
  · rw [rpmAnomalyCheck, hcv]
    simp
  · intro c hrep
    have h0 : popVariance (recentSlice h) = 0 := by
      rw [hrep]
      exact popVariance_replicate 20 (by norm_num) c
    have hd : decide ((5000 : ℚ) < 0) = false := decide_eq_false (by norm_num)
    refine ⟨h0, ?_⟩
    rw [rpmAnomalyCheck, hcv, h0]
    simp [hd]

/-- Witness for C3: the 20-sample all-2000 rpm history gives variance 0 and no
anomaly. -/
theorem C3_variance_anomaly_witness :
    popVariance (recentSlice (List.replicate 20 2000)) = 0 ∧
    rpmAnomalyCheck (List.replicate 20 2000) = some false :=
  (C3_variance_anomaly (List.replicate 20 2000) (by simp)).2.2.2 2000
    (by simp [recentSlice])

/-- C4: thermal health is 100 - max(0, coolant-100)*5 with no lower clamp
(negative at coolant 121); engine health loses 5 above 4500 rpm and 2 above
load 90; electrical health loses 10 below battery 12.8; and at coolant 105
with rpm at most 4500, load at most 90 and battery at least 12.8 the thermal
health is 75 and the hygiene score rounds to 90. -/
theorem C4_health_scores (c r l b : ℚ) :
    thermalHealth c = 100 - max 0 (c - 100) * 5 ∧
    engineHealth r l
      = 100 - (if 4500 < r then 5 else 0) - (if 90 < l then 2 else 0) ∧
    elecHealth b = 100 - (if b < 12.8 then 10 else 0) ∧
    thermalHealth 121 < 0 ∧
    (c = 105 → r ≤ 4500 → l ≤ 90 → 12.8 ≤ b →
      thermalHealth c = 75 ∧
      hygieneScore (thermalHealth c) (engineHealth r l) (elecHealth b) = 90) := by
  refine ⟨?_, rfl, rfl, by norm_num [thermalHealth], ?_⟩
  · by_cases hc : 100 < c
    · rw [thermalHealth, if_pos hc, max_eq_right (by linarith)]
    · rw [thermalHealth, if_neg hc, max_eq_left (by linarith)]
      norm_num
  · intro hc hr hl hb
    have h1 : thermalHealth c = 75 := by
      rw [hc]
      norm_num [thermalHealth]
    have h2 : engineHealth r l = 100 := by
      rw [engineHealth, if_neg (not_lt.mpr hr), if_neg (not_lt.mpr hl)]
      norm_num
    have h3 : elecHealth b = 100 := by
      rw [elecHealth, if_neg (not_lt.mpr hb)]
      norm_num
    refine ⟨h1, ?_⟩
    rw [h1, h2, h3, hygieneScore,
      show (75 : ℚ) * 0.4 + 100 * 0.4 + 100 * 0.2 = ((90 : ℤ) : ℚ) by norm_num,
      round_intCast]

/-- Witness for C4: the scenario coolant 105, rpm 1000, load 20, battery 13. -/
theorem C4_health_scores_witness :
    thermalHealth 105 = 75 ∧
    hygieneScore (thermalHealth 105) (engineHealth 1000 20) (elecHealth 13) = 90 :=
  (C4_health_scores 105 1000 20 13).2.2.2.2 rfl (by norm_num) (by norm_num)
    (by norm_num)

lemma sumPosDeltas_cons_ramp :
    ∀ (n : ℕ) (c : ℚ), sumPosDeltas (c :: rampFrom n (c + 5)) = 5 + 5 * n := by
  intro n
  induction n with
  | zero =>
    intro c
    norm_num [rampFrom, sumPosDeltas]
  | succ k ih =>
    intro c
    rw [show rampFrom (k + 1) (c + 5) = (c + 5) :: rampFrom k (c + 5 + 5) from rfl,
      show sumPosDeltas (c :: (c + 5) :: rampFrom k (c + 5 + 5))
          = (if c < c + 5 then c + 5 - c else 0)
            + sumPosDeltas ((c + 5) :: rampFrom k (c + 5 + 5)) from rfl,
      ih (c + 5), if_pos (by linarith : c < c + 5)]
    push_cast
    ring

lemma calculateAggression_ramp (n : ℕ) (c : ℚ) :
    calculateAggression (rampFrom (n + 1) c)
      = min 100 ((5 + 5 * (n : ℚ)) * 2) := by
  rw [calculateAggression,
    show rampFrom (n + 1) c = c :: rampFrom n (c + 5) from rfl,
    sumPosDeltas_cons_ramp]

/-- C5: the driver classification is a first-match-wins cascade: aggression
above 60 gives AGGRESSIVE with confidence 92; else aggression below 20 with
speed above 30 gives ECO-OPTIMAL with confidence 96; else rpm volatility
above 8 gives ERRATIC with confidence 78; else NORMAL with confidence
85 + jitter*10, which lies in [85,95) for a valid jitter draw; and the
20-sample throttle history rising by 5 each pair yields aggression 100 and
class AGGRESSIVE with confidence 92. -/
theorem C5_driver_classification (agg speed rpmVol jitter : ℚ) :
    (60 < agg →
      classifyDriver agg speed rpmVol jitter = (DriverClass.AGGRESSIVE, 92)) ∧
    (agg ≤ 60 → agg < 20 → 30 < speed →
      classifyDriver agg speed rpmVol jitter = (DriverClass.ECO_OPTIMAL, 96)) ∧
    (agg ≤ 60 → ¬ (agg < 20 ∧ 30 < speed) → 8 < rpmVol →
      classifyDriver agg speed rpmVol jitter = (DriverClass.ERRATIC, 78)) ∧
    (agg ≤ 60 → ¬ (agg < 20 ∧ 30 < speed) → rpmVol ≤ 8 →
      classifyDriver agg speed rpmVol jitter
        = (DriverClass.NORMAL, 85 + jitter * 10)) ∧
    (0 ≤ jitter → jitter < 1 →
      85 ≤ 85 + jitter * 10 ∧ 85 + jitter * 10 < 95) ∧
    (∀ c : ℚ, calculateAggression (rampFrom 19 c) = 100 ∧
      classifyDriver (calculateAggression (rampFrom 19 c)) speed rpmVol jitter
        = (DriverClass.AGGRESSIVE, 92)) := by
  refine ⟨?_, ?_, ?_, ?_, ?_, ?_⟩
  · intro h1
    rw [classifyDriver, if_pos h1]
  · intro h1 h2 h3
    rw [classifyDriver, if_neg (not_lt.mpr h1), if_pos ⟨h2, h3⟩]
  · intro h1 h2 h3
    rw [classifyDriver, if_neg (not_lt.mpr h1), if_neg h2, if_pos h3]
  · intro h1 h2 h3
    rw [classifyDriver, if_neg (not_lt.mpr h1), if_neg h2,
      if_neg (not_lt.mpr h3)]
  · intro h0 h1
    constructor <;> nlinarith
  · intro c
    have hagg : calculateAggression (rampFrom 19 c) = 100 := by
      rw [show (19 : ℕ) = 18 + 1 from rfl, calculateAggression_ramp]
      norm_num [min_def]
    exact ⟨hagg, by rw [hagg, classifyDriver,
      if_pos (by norm_num : (60 : ℚ) < 100)]⟩

/-- Witness for C5: aggression 70 classifies AGGRESSIVE at confidence 92, and
the 5-step ramp from 0 has aggression 100. -/
theorem C5_driver_classification_witness :
    classifyDriver 70 0 0 0 = (DriverClass.AGGRESSIVE, 92) ∧
    calculateAggression (rampFrom 19 0) = 100 :=
  ⟨(C5_driver_classification 70 0 0 0).1 (by norm_num),
   ((C5_driver_classification 70 0 0 0).2.2.2.2.2 0).1⟩

lemma foldl_rulStep_le (suf : List ℚ) :
    ∀ x, (∀ l ∈ suf, (0 : ℚ) ≤ l) → suf.foldl rulStep x ≤ x := by
  induction suf with
  | nil =>
    intro x _
    simp
  | cons a t ih =>
    intro x hpos
    have ha : (0 : ℚ) ≤ a := hpos a (List.mem_cons_self a t)
    have h1 : t.foldl rulStep (rulStep x a) ≤ rulStep x a :=
      ih _ (fun l hl => hpos l (List.mem_cons_of_mem a hl))
    have h2 : rulStep x a ≤ x := by
      rw [rulStep]
      linarith
    simp only [List.foldl_cons]
    linarith

/-- C6: the RUL counter starts at 15000, each inference call subtracts exactly
0.1 * (load/100) * 2 for the current load, and across any sequence of calls
with nonnegative loads the counter never increases (never resets upward). -/
theorem C6_rul_monotone :
    rulAfter [] = 15000 ∧
    (∀ rul load, rulStep rul load = rul - 0.1 * (load / 100) * 2) ∧
    (∀ pre suf, (∀ l ∈ suf, (0 : ℚ) ≤ l) →
      rulAfter (pre ++ suf) ≤ rulAfter pre) := by
  refine ⟨rfl, ?_, ?_⟩
  · intro rul load
    rw [rulStep]
    ring
  · intro pre suf hsuf
    rw [rulAfter, rulAfter, List.foldl_append]
    exact foldl_rulStep_le suf _ hsuf

/-- Witness for C6: one further inference call at load 80 after a call at load
50 does not increase the RUL estimate. -/
theorem C6_rul_monotone_witness :
    rulAfter ([50] ++ [80]) ≤ rulAfter [50] :=
  C6_rul_monotone.2.2 [50] [80] (by
    intro l hl
    simp only [List.mem_singleton] at hl
    rw [hl]
    norm_num)

/-- C8: along every trace the rpm history always holds 100 samples, so the
20-sample slice handed to the variance computation is never empty: the
seed-less reduction's error case is unreachable and the variance and anomaly
results are always defined. -/
theorem C8_variance_input_nonempty (f : ℕ → Draws) (n : ℕ) :
    (recentSlice ((traceSim f n).history.rpm)).length = 20 ∧
    recentSlice ((traceSim f n).history.rpm) ≠ [] ∧
    (calculateVariance (recentSlice ((traceSim f n).history.rpm))).isSome = true ∧
    (rpmAnomalyCheck ((traceSim f n).history.rpm)).isSome = true := by
  have hlen := (trace_history_lengths f n).1
  have h20 : (recentSlice ((traceSim f n).history.rpm)).length = 20 := by
    simp [recentSlice, hlen]
  have hne : recentSlice ((traceSim f n).history.rpm) ≠ [] := by
    intro he
    rw [he] at h20
    simp at h20
  have hcv := calculateVariance_eq _ hne
  exact ⟨h20, hne, by simp [hcv], by simp [rpmAnomalyCheck, hcv]⟩
